import Mathlib

/-!
Verification of the `ghg` git-productivity CLI (`src/gpp/main.py`).

The repository is a thin orchestration layer over the `git` and `gh`
executables.  We shallowly embed its pure string logic
(`title_to_branch_name`, the per-check classification of `list_prs`) and its
command handlers.  A handler is modelled as a function of an `Env` — an
oracle giving the result of every external-process invocation and
filesystem query — returning the `Trace` of commands it issued, the console
messages it printed, the symlinks it created, and its `Outcome`
(success, `typer.Exit(code)`, or an uncaught Python exception).
-/

namespace Gpp

/-! ## Python-flavoured character and list primitives -/

/-- ASCII fragment of Python's `\s` / `str.strip()` whitespace class. -/
def pyIsSpace (c : Char) : Bool :=
  c = ' ' ∨ c = '\t' ∨ c = '\n' ∨ c = '\r' ∨ c = '\x0b' ∨ c = '\x0c'

/-- Python `\w` (word character), ASCII fragment: alphanumeric or underscore. -/
def wordChar (c : Char) : Bool := c.isAlphanum || c = '_'

/-- Characters kept by `re.sub(r'[^\w\s-]', '', ·)`: word chars, whitespace, hyphen. -/
def keepChar (c : Char) : Bool := wordChar c || pyIsSpace c || c = '-'

/-- Class replaced by a hyphen in `re.sub(r'[\s_]+', '-', ·)`: whitespace or underscore. -/
def wsU (c : Char) : Bool := pyIsSpace c || c = '_'

/-- The hyphen class of `re.sub(r'-+', '-', ·)` and `.strip('-')`. -/
def hy (c : Char) : Bool := c = '-'

/-- Worker for `replaceRuns`; `inRun` records whether the previous character
was part of a (already replaced) run of the class `p`. -/
def replaceRunsAux (p : Char → Bool) (rep : Char) : Bool → List Char → List Char
  | _, [] => []
  | inRun, c :: cs =>
    if p c then
      (if inRun then [] else [rep]) ++ replaceRunsAux p rep true cs
    else c :: replaceRunsAux p rep false cs

/-- Replace every maximal run of characters satisfying `p` by the single
character `rep` (the effect of `re.sub(r'[p]+', rep, ·)`). -/
def replaceRuns (p : Char → Bool) (rep : Char) (l : List Char) : List Char :=
  replaceRunsAux p rep false l

/-- Drop characters satisfying `p` from both ends (Python `str.strip`). -/
def stripBy (p : Char → Bool) (l : List Char) : List Char :=
  ((l.dropWhile p).reverse.dropWhile p).reverse

/-- Lowercase then delete characters outside `[\w\s-]`
(`re.sub(r'[^\w\s-]', '', title.lower())`). -/
def cleanChars (l : List Char) : List Char := (l.map Char.toLower).filter keepChar

/-- `title_to_branch_name` (src/gpp/main.py:32-42): lowercase, drop special
characters, turn whitespace/underscore runs into hyphens, collapse hyphen
runs, trim outer hyphens. -/
def title_to_branch_name (title : String) : String :=
  ⟨stripBy hy (replaceRuns hy '-' (replaceRuns wsU '-'
      (stripBy pyIsSpace (cleanChars title.data))))⟩

/-! ## Lemmas about the branch-name normalisation -/

theorem toLower_toLower (c : Char) : (Char.toLower c).toLower = Char.toLower c := by
  by_cases h : c.toNat ≥ 65 ∧ c.toNat ≤ 90
  · have hc : Char.toLower c = Char.ofNat (c.toNat + 32) := by
      unfold Char.toLower
      rw [if_pos h]
    rw [hc]
    obtain ⟨h1, h2⟩ := h
    set n := c.toNat with hn
    interval_cases n <;> decide
  · have hc : Char.toLower c = c := by
      unfold Char.toLower
      rw [if_neg h]
    rw [hc, hc]

theorem mem_replaceRunsAux {p : Char → Bool} {rep c : Char} :
    ∀ (l : List Char) (b : Bool), c ∈ replaceRunsAux p rep b l →
      c = rep ∨ (c ∈ l ∧ p c = false) := by
  intro l
  induction l with
  | nil => intro b h; simp [replaceRunsAux] at h
  | cons a as ih =>
    intro b h
    by_cases hp : p a
    · simp only [replaceRunsAux, if_pos hp, List.mem_append] at h
      rcases h with h | h
      · left
        rcases b with _ | _ <;> simp_all
      · rcases ih true h with h' | ⟨hm, hf⟩
        · exact Or.inl h'
        · exact Or.inr ⟨List.mem_cons_of_mem a hm, hf⟩
    · simp only [replaceRunsAux, if_neg hp, List.mem_cons] at h
      rcases h with rfl | h
      · exact Or.inr ⟨List.mem_cons_self _ _, by simpa using hp⟩
      · rcases ih false h with h' | ⟨hm, hf⟩
        · exact Or.inl h'
        · exact Or.inr ⟨List.mem_cons_of_mem a hm, hf⟩

theorem mem_replaceRuns {p : Char → Bool} {rep c : Char} {l : List Char}
    (h : c ∈ replaceRuns p rep l) : c = rep ∨ (c ∈ l ∧ p c = false) :=
  mem_replaceRunsAux l false h

theorem replaceRunsAux_eq_self {p : Char → Bool} {rep : Char} :
    ∀ (l : List Char) (b : Bool), (∀ c ∈ l, p c = false) →
      replaceRunsAux p rep b l = l := by
  intro l
  induction l with
  | nil => intro b _; rfl
  | cons a as ih =>
    intro b hall
    have ha : p a = false := hall a (List.mem_cons_self _ _)
    have step : replaceRunsAux p rep b (a :: as) = a :: replaceRunsAux p rep false as := by
      simp [replaceRunsAux, ha]
    rw [step, ih false fun c hc => hall c (List.mem_cons_of_mem a hc)]

theorem replaceRuns_eq_self {p : Char → Bool} {rep : Char} {l : List Char}
    (h : ∀ c ∈ l, p c = false) : replaceRuns p rep l = l :=
  replaceRunsAux_eq_self l false h

theorem replaceRunsAux_true_head {p : Char → Bool} {rep : Char} :
    ∀ (l : List Char) (a : Char), (replaceRunsAux p rep true l).head? = some a →
      p a = false := by
  intro l
  induction l with
  | nil => intro a h; simp [replaceRunsAux] at h
  | cons c cs ih =>
    intro a h
    by_cases hp : p c
    · simp only [replaceRunsAux, if_pos hp, if_pos rfl, List.nil_append] at h
      exact ih a h
    · simp only [replaceRunsAux, if_neg hp, List.head?_cons, Option.some.injEq] at h
      subst h
      simpa using hp

/-- No two adjacent characters of the output of `replaceRuns` both lie in the
replaced class. -/
theorem chain'_replaceRunsAux {p : Char → Bool} {rep : Char} :
    ∀ (l : List Char) (b : Bool),
      (replaceRunsAux p rep b l).Chain' (fun x y => ¬(p x = true ∧ p y = true)) := by
  intro l
  induction l with
  | nil => intro b; simp [replaceRunsAux]
  | cons c cs ih =>
    intro b
    by_cases hp : p c
    · rcases b with _ | _
      · have step : replaceRunsAux p rep false (c :: cs) =
            rep :: replaceRunsAux p rep true cs := by
          simp [replaceRunsAux, hp]
        rw [step, List.chain'_cons']
        refine ⟨?_, ih true⟩
        intro y hy
        have := replaceRunsAux_true_head cs y (by simpa using hy)
        simp [this]
      · have step : replaceRunsAux p rep true (c :: cs) =
            replaceRunsAux p rep true cs := by
          simp [replaceRunsAux, hp]
        rw [step]
        exact ih true
    · have step : replaceRunsAux p rep b (c :: cs) =
          c :: replaceRunsAux p rep false cs := by
        simp [replaceRunsAux, hp]
      rw [step, List.chain'_cons']
      refine ⟨?_, ih false⟩
      intro y _
      simp [hp]

theorem chain'_replaceRuns {p : Char → Bool} {rep : Char} {l : List Char} :
    (replaceRuns p rep l).Chain' (fun x y => ¬(p x = true ∧ p y = true)) :=
  chain'_replaceRunsAux l false

/-- Collapsing hyphen runs is the identity on lists with no adjacent hyphens. -/
theorem replaceRuns_hy_eq_self :
    ∀ (l : List Char), l.Chain' (fun x y => ¬(hy x = true ∧ hy y = true)) →
      replaceRuns hy '-' l = l := by
  have key : ∀ (l : List Char), l.Chain' (fun x y => ¬(hy x = true ∧ hy y = true)) →
      replaceRunsAux hy '-' false l = l ∧
      ((∀ a, l.head? = some a → hy a = false) → replaceRunsAux hy '-' true l = l) := by
    intro l
    induction l with
    | nil => intro _; exact ⟨rfl, fun _ => rfl⟩
    | cons c cs ih =>
      intro hch
      have hch' : cs.Chain' (fun x y => ¬(hy x = true ∧ hy y = true)) := hch.tail
      rcases ih hch' with ⟨ihf, iht⟩
      constructor
      · by_cases hc : hy c
        · have hc' : c = '-' := by simpa [hy] using hc
          have hhead : ∀ a, cs.head? = some a → hy a = false := by
            intro a ha
            have := (List.chain'_cons'.mp hch).1 a ha
            rcases cs with _ | ⟨d, ds⟩
            · simp at ha
            · simp only [List.head?_cons, Option.some.injEq] at ha
              subst ha
              by_contra hcon
              exact this ⟨hc, by simpa using hcon⟩
          have step : replaceRunsAux hy '-' false (c :: cs) =
              '-' :: replaceRunsAux hy '-' true cs := by
            simp [replaceRunsAux, hc]
          rw [step, iht hhead]
          rw [hc']
        · have step : replaceRunsAux hy '-' false (c :: cs) =
              c :: replaceRunsAux hy '-' false cs := by
            simp [replaceRunsAux, hc]
          rw [step, ihf]
      · intro hhead
        have hc : hy c = false := hhead c rfl
        have step : replaceRunsAux hy '-' true (c :: cs) =
            c :: replaceRunsAux hy '-' false cs := by
          simp [replaceRunsAux, hc]
        rw [step, ihf]
  intro l hch
  exact (key l hch).1

theorem dropWhile_eq_self_of {p : Char → Bool} {l : List Char}
    (h : ∀ c ∈ l, p c = false) : l.dropWhile p = l := by
  cases l with
  | nil => rfl
  | cons a as =>
    have := h a (List.mem_cons_self _ _)
    simp [List.dropWhile_cons, this]

theorem mem_stripBy {p : Char → Bool} {l : List Char} {c : Char}
    (h : c ∈ stripBy p l) : c ∈ l := by
  simp only [stripBy, List.mem_reverse] at h
  have h1 := (List.dropWhile_sublist p).subset h
  simp only [List.mem_reverse] at h1
  exact (List.dropWhile_sublist p).subset h1

theorem stripBy_eq_self_of_mem {p : Char → Bool} {l : List Char}
    (h : ∀ c ∈ l, p c = false) : stripBy p l = l := by
  unfold stripBy
  rw [dropWhile_eq_self_of h]
  rw [dropWhile_eq_self_of (fun c hc => h c (List.mem_reverse.mp hc))]
  exact List.reverse_reverse l

theorem head?_dropWhile {p : Char → Bool} :
    ∀ (l : List Char) (a : Char), (l.dropWhile p).head? = some a → p a = false := by
  intro l
  induction l with
  | nil => intro a h; simp at h
  | cons c cs ih =>
    intro a h
    by_cases hp : p c
    · rw [List.dropWhile_cons_of_pos hp] at h
      exact ih a h
    · rw [List.dropWhile_cons_of_neg hp] at h
      simp only [List.head?_cons, Option.some.injEq] at h
      subst h
      simpa using hp

theorem getLast?_dropWhile {p : Char → Bool} :
    ∀ (l : List Char), l.dropWhile p ≠ [] → (l.dropWhile p).getLast? = l.getLast? := by
  intro l
  induction l with
  | nil => intro h; simp at h
  | cons c cs ih =>
    intro h
    by_cases hp : p c
    · rw [List.dropWhile_cons_of_pos hp] at h ⊢
      rcases hcs : cs with _ | ⟨d, ds⟩
      · subst hcs; simp at h
      · rw [← hcs]
        rw [ih h, hcs]
        simp
    · rw [List.dropWhile_cons_of_neg hp]

theorem stripBy_head? {p : Char → Bool} {l : List Char} {a : Char}
    (h : (stripBy p l).head? = some a) : p a = false := by
  unfold stripBy at h
  rw [List.head?_reverse] at h
  by_cases hnil : ((l.dropWhile p).reverse.dropWhile p) = []
  · rw [hnil] at h; simp at h
  · rw [getLast?_dropWhile _ hnil] at h
    rw [List.getLast?_reverse] at h
    exact head?_dropWhile l a h

theorem stripBy_getLast? {p : Char → Bool} {l : List Char} {a : Char}
    (h : (stripBy p l).getLast? = some a) : p a = false := by
  unfold stripBy at h
  rw [List.getLast?_reverse] at h
  exact head?_dropWhile _ a h

theorem stripBy_eq_self_of_ends {p : Char → Bool} {l : List Char}
    (h1 : ∀ a, l.head? = some a → p a = false)
    (h2 : ∀ a, l.getLast? = some a → p a = false) : stripBy p l = l := by
  unfold stripBy
  have e1 : l.dropWhile p = l := by
    cases l with
    | nil => rfl
    | cons c cs =>
      have := h1 c rfl
      simp [List.dropWhile_cons, this]
  rw [e1]
  have e2 : l.reverse.dropWhile p = l.reverse := by
    cases hl : l.reverse with
    | nil => rfl
    | cons c cs =>
      have hc : l.getLast? = some c := by
        rw [List.getLast?_eq_head?_reverse, hl]
        rfl
      have := h2 c hc
      rw [List.dropWhile_cons_of_neg (by simp [this])]
  rw [e2, List.reverse_reverse]

theorem chain'_dropWhile {R : Char → Char → Prop} {q : Char → Bool} :
    ∀ (l : List Char), l.Chain' R → (l.dropWhile q).Chain' R := by
  intro l
  induction l with
  | nil => intro h; simp
  | cons c cs ih =>
    intro h
    by_cases hq : q c
    · rw [List.dropWhile_cons_of_pos hq]
      exact ih h.tail
    · rw [List.dropWhile_cons_of_neg hq]
      exact h

theorem chain'_stripBy {R : Char → Char → Prop} (hsym : ∀ a b, R a b → R b a)
    {p : Char → Bool} {l : List Char} (h : l.Chain' R) : (stripBy p l).Chain' R := by
  unfold stripBy
  rw [List.chain'_reverse]
  refine List.Chain'.imp (fun a b hab => hsym a b hab) ?_
  refine chain'_dropWhile _ ?_
  rw [List.chain'_reverse]
  refine List.Chain'.imp (fun a b hab => hsym a b hab) ?_
  exact chain'_dropWhile _ h

/-- Every character of a normalised branch name is a hyphen or the
lowercasing of an input character that survived the filter; in either case
it is untouched by a second whitespace/underscore pass. -/
theorem mem_title_chars {t : String} {c : Char}
    (h : c ∈ (title_to_branch_name t).data) :
    c = '-' ∨ ((∃ c0 ∈ t.data, c = Char.toLower c0) ∧ keepChar c = true ∧ wsU c = false) := by
  have h1 : c ∈ replaceRuns hy '-' (replaceRuns wsU '-'
      (stripBy pyIsSpace (cleanChars t.data))) := mem_stripBy h
  rcases mem_replaceRuns h1 with rfl | ⟨h2, _⟩
  · exact Or.inl rfl
  · rcases mem_replaceRuns h2 with rfl | ⟨h3, hws⟩
    · exact Or.inl rfl
    · have h4 : c ∈ cleanChars t.data := mem_stripBy h3
      unfold cleanChars at h4
      rw [List.mem_filter] at h4
      obtain ⟨h5, hkeep⟩ := h4
      rw [List.mem_map] at h5
      obtain ⟨c0, hc0, rfl⟩ := h5
      exact Or.inr ⟨⟨c0, hc0, rfl⟩, hkeep, hws⟩

/-- Characters of a normalised branch name: fixed under lowercasing, kept by
the character filter, and neither whitespace nor underscore. -/
theorem mem_title_trio {t : String} {c : Char}
    (h : c ∈ (title_to_branch_name t).data) :
    Char.toLower c = c ∧ keepChar c = true ∧ wsU c = false := by
  rcases mem_title_chars h with rfl | ⟨⟨c0, _, rfl⟩, hkeep, hws⟩
  · refine ⟨by decide, by decide, by decide⟩
  · exact ⟨toLower_toLower c0, hkeep, hws⟩

theorem chain'_title (t : String) :
    (title_to_branch_name t).data.Chain' (fun x y => ¬(hy x = true ∧ hy y = true)) :=
  chain'_stripBy (fun _ _ hab h => hab ⟨h.2, h.1⟩) chain'_replaceRuns

theorem title_head? {t : String} {a : Char}
    (h : (title_to_branch_name t).data.head? = some a) : hy a = false :=
  stripBy_head? h

theorem title_getLast? {t : String} {a : Char}
    (h : (title_to_branch_name t).data.getLast? = some a) : hy a = false :=
  stripBy_getLast? h

theorem title_to_branch_name_apply_twice (s : String) :
    title_to_branch_name (title_to_branch_name s) = title_to_branch_name s := by
  have e1 : cleanChars (title_to_branch_name s).data = (title_to_branch_name s).data := by
    unfold cleanChars
    rw [List.map_congr_left (fun a ha => (mem_title_trio ha).1), List.map_id']
    exact List.filter_eq_self.mpr fun a ha => (mem_title_trio ha).2.1
  have e2 : stripBy pyIsSpace (title_to_branch_name s).data =
      (title_to_branch_name s).data := by
    refine stripBy_eq_self_of_mem fun c hc => ?_
    have hws := (mem_title_trio hc).2.2
    simp only [wsU, Bool.or_eq_false_iff] at hws
    exact hws.1
  have e3 : replaceRuns wsU '-' (title_to_branch_name s).data =
      (title_to_branch_name s).data :=
    replaceRuns_eq_self fun c hc => (mem_title_trio hc).2.2
  have e4 : replaceRuns hy '-' (title_to_branch_name s).data =
      (title_to_branch_name s).data :=
    replaceRuns_hy_eq_self _ (chain'_title s)
  have e5 : stripBy hy (title_to_branch_name s).data = (title_to_branch_name s).data :=
    stripBy_eq_self_of_ends (fun a ha => title_head? ha) (fun a ha => title_getLast? ha)
  calc title_to_branch_name (title_to_branch_name s)
      = ⟨stripBy hy (replaceRuns hy '-' (replaceRuns wsU '-'
          (stripBy pyIsSpace (cleanChars (title_to_branch_name s).data))))⟩ := rfl
    _ = ⟨(title_to_branch_name s).data⟩ := by rw [e1, e2, e3, e4, e5]
    _ = title_to_branch_name s := rfl

theorem title_empty_of_no_alnum {s : String}
    (h : ∀ c ∈ s.data, (Char.toLower c).isAlphanum = false) :
    title_to_branch_name s = "" := by
  have hall : ∀ c ∈ (title_to_branch_name s).data, c = '-' := by
    intro c hc
    rcases mem_title_chars hc with h1 | ⟨⟨c0, hc0, rfl⟩, hkeep, hws⟩
    · exact h1
    · have halnum := h c0 hc0
      have hws' : pyIsSpace (Char.toLower c0) = false ∧ ¬ Char.toLower c0 = '_' := by
        simpa [wsU] using hws
      simp only [keepChar, wordChar, halnum, hws'.1, Bool.false_or, Bool.or_eq_true,
        decide_eq_true_eq, Bool.false_eq_true, or_false] at hkeep
      rcases hkeep with h' | h'
      · exact absurd h' hws'.2
      · exact h'
  cases hd : (title_to_branch_name s).data with
  | nil =>
    apply String.ext
    rw [hd]
  | cons a as =>
    exfalso
    have ha : hy a = false := title_head? (by rw [hd]; rfl)
    have ha' : a = '-' := hall a (by rw [hd]; exact List.mem_cons_self _ _)
    rw [ha'] at ha
    simp [hy] at ha

/-- C2: `title_to_branch_name` (BranchNamer) is deterministic and total by
construction (it is a function of its input).  It is idempotent under
re-application; the two documented examples hold; and an input with no valid
characters (no character whose lowercasing is alphanumeric) yields `""`. -/
theorem C2_title_to_branch_name_idempotent_total :
    (∀ s : String, title_to_branch_name (title_to_branch_name s) = title_to_branch_name s) ∧
    title_to_branch_name "Fix Login Bug!!" = "fix-login-bug" ∧
    title_to_branch_name "  multiple   spaces_and_underscores " =
      "multiple-spaces-and-underscores" ∧
    (∀ s : String, (∀ c ∈ s.data, (Char.toLower c).isAlphanum = false) →
      title_to_branch_name s = "") :=
  ⟨title_to_branch_name_apply_twice, by decide, by decide,
    fun _ h => title_empty_of_no_alnum h⟩

/-- Witness for C2 at concrete inputs: idempotence at "Fix Login Bug!!" and
the empty result on the symbol-only input "!!! _-_ !!!". -/
theorem C2_witness :
    title_to_branch_name (title_to_branch_name "Fix Login Bug!!") =
      title_to_branch_name "Fix Login Bug!!" ∧
    title_to_branch_name "!!! _-_ !!!" = "" :=
  ⟨C2_title_to_branch_name_idempotent_total.1 "Fix Login Bug!!",
    C2_title_to_branch_name_idempotent_total.2.2.2 "!!! _-_ !!!" (by decide)⟩

/-! ## The check classification of `list_prs` (src/gpp/main.py:404-446)

A JSON object field is absent, JSON `null`, or a string.  `dict.get(k, d)`
returns `d` only when the key is absent; a present `null` comes back as
Python `None`, and `None.upper()` raises `AttributeError`.  We model a raised
exception as `none`. -/

inductive JField where
  | absent
  | jnull
  | jstr (s : String)
deriving DecidableEq, Repr

/-- One entry of a PR's `statusCheckRollup` array, restricted to the fields
the code reads. -/
structure Check where
  typename : JField
  conclusion : JField
  status : JField
  state : JField
deriving DecidableEq, Repr

/-- Python `check.get(key) == lit` — `None` (absent or null) never equals a
string, so no exception can arise here. -/
def jEqStr (f : JField) (s : String) : Bool := f = .jstr s

/-- Python `str.upper()`, ASCII fragment. -/
def pyUpper (s : String) : String := ⟨s.data.map Char.toUpper⟩

/-- Python `check.get(key, dflt).upper()`: `none` models the
`AttributeError` raised when the field is present but `null`. -/
def jGetUpper (f : JField) (dflt : String) : Option String :=
  match f with
  | .absent => some (pyUpper dflt)
  | .jnull => none
  | .jstr s => some (pyUpper s)

/-- The four tallied buckets plus the fall-through (counted nowhere). -/
inductive CheckClass where
  | success
  | failure
  | skipped
  | pending
  | ignored
deriving DecidableEq, Repr

/-- Classification of a single rollup entry, following the two-shape scan of
`list_prs` (CheckRun via `conclusion`/`status`, StatusContext via `state`);
`none` models the `AttributeError` on a present-but-null field. -/
def classifyCheck (c : Check) : Option CheckClass :=
  if jEqStr c.typename "CheckRun" then
    match jGetUpper c.conclusion "" with
    | none => none
    | some concl =>
      some (if concl = "SUCCESS" then .success
        else if concl = "FAILURE" then .failure
        else if concl = "SKIPPED" then .skipped
        else if jEqStr c.status "IN_PROGRESS" then .pending
        else .ignored)
  else if jEqStr c.typename "StatusContext" then
    match jGetUpper c.state "" with
    | none => none
    | some st =>
      some (if st = "SUCCESS" then .success
        else if st = "FAILURE" then .failure
        else if st = "PENDING" then .pending
        else .ignored)
  else some .ignored

/-- The four counters of the tally loop. -/
structure Counts where
  success : Nat
  failure : Nat
  pending : Nat
  skipped : Nat
deriving DecidableEq, Repr

def Counts.bump (k : Counts) : CheckClass → Counts
  | .success => { k with success := k.success + 1 }
  | .failure => { k with failure := k.failure + 1 }
  | .pending => { k with pending := k.pending + 1 }
  | .skipped => { k with skipped := k.skipped + 1 }
  | .ignored => k

/-- The `for check in status_rollup` loop; the first raised exception aborts
the whole tally. -/
def tallyFrom (acc : Counts) : List Check → Option Counts
  | [] => some acc
  | c :: rest =>
    match classifyCheck c with
    | none => none
    | some cl => tallyFrom (acc.bump cl) rest

def tallyChecks (rollup : List Check) : Option Counts :=
  tallyFrom ⟨0, 0, 0, 0⟩ rollup

/-- The one-line check summary of `list_prs` for one PR (lines 408-446):
`"❓ No checks"` on an empty rollup, otherwise the priority chain
failed → pending → passed → skipped over the tallied counts. -/
def checkSummary (rollup : List Check) : Option String :=
  if rollup.isEmpty then some "❓ No checks"
  else
    match tallyChecks rollup with
    | none => none
    | some k =>
      let total := rollup.length
      some (if k.failure > 0 then
          "❌ " ++ toString k.failure ++ "/" ++ toString total ++ " failed"
        else if k.pending > 0 then
          "⏳ " ++ toString k.pending ++ "/" ++ toString total ++ " pending"
        else if k.success > 0 then
          "✅ " ++ toString k.success ++ "/" ++ toString total ++ " passed"
        else
          "⚪ " ++ toString k.skipped ++ "/" ++ toString total ++ " skipped")

/-- Counting view of the tally: the counters are the multiplicities of the
classification outcomes. -/
def countsOf (rollup : List Check) : Counts :=
  let res := rollup.filterMap classifyCheck
  ⟨res.count .success, res.count .failure, res.count .pending, res.count .skipped⟩

theorem Counts.bump_comm (k : Counts) (a b : CheckClass) :
    (k.bump a).bump b = (k.bump b).bump a := by
  cases a <;> cases b <;> rfl

theorem tallyFrom_bump (cl : CheckClass) :
    ∀ (l : List Check) (acc : Counts),
      tallyFrom (acc.bump cl) l = (tallyFrom acc l).map (·.bump cl) := by
  intro l
  induction l with
  | nil => intro acc; rfl
  | cons c rest ih =>
    intro acc
    rcases hcl : classifyCheck c with _ | cl'
    · simp [tallyFrom, hcl]
    · simp only [tallyFrom, hcl]
      rw [Counts.bump_comm, ih]

theorem countsOf_cons {c : Check} {cl : CheckClass} (h : classifyCheck c = some cl)
    (rest : List Check) : countsOf (c :: rest) = (countsOf rest).bump cl := by
  unfold countsOf
  simp only [List.filterMap_cons, h]
  cases cl <;> simp [Counts.bump, List.count_cons]

theorem tallyChecks_eq_countsOf :
    ∀ (rollup : List Check), (∀ c ∈ rollup, (classifyCheck c).isSome) →
      tallyChecks rollup = some (countsOf rollup) := by
  intro rollup
  induction rollup with
  | nil => intro _; rfl
  | cons c rest ih =>
    intro h
    have hc := h c (List.mem_cons_self _ _)
    rcases hcl : classifyCheck c with _ | cl
    · rw [hcl] at hc; simp at hc
    · have hrest := ih fun x hx => h x (List.mem_cons_of_mem c hx)
      unfold tallyChecks at hrest ⊢
      simp only [tallyFrom, hcl]
      rw [tallyFrom_bump, hrest, countsOf_cons hcl]
      rfl

/-- A successful CheckRun entry. -/
def successCheck : Check := ⟨.jstr "CheckRun", .jstr "SUCCESS", .jstr "COMPLETED", .absent⟩

/-- A failed CheckRun entry. -/
def failureCheck : Check := ⟨.jstr "CheckRun", .jstr "FAILURE", .jstr "COMPLETED", .absent⟩

/-- A pending CheckRun entry: no `conclusion` yet, `status` IN_PROGRESS. -/
def pendingCheck : Check := ⟨.jstr "CheckRun", .absent, .jstr "IN_PROGRESS", .absent⟩

/-- A CheckRun entry whose `conclusion` key is present with JSON `null`
(how an unfinished check run is serialised). -/
def nullConclusionCheck : Check := ⟨.jstr "CheckRun", .jnull, .jstr "IN_PROGRESS", .absent⟩

/-- C1: the one-line check summary of `list_prs` obeys the priority rule —
failures win, then pending, then passed, then skipped, with counts over the
classified entries and the total the rollup length; the empty rollup gives
the distinct "No checks" indicator; and `[success, failure, pending]`
summarises as "1/3 failed". -/
theorem C1_check_summary_priority (rollup : List Check)
    (h : ∀ c ∈ rollup, (classifyCheck c).isSome) :
    (checkSummary [] = some "❓ No checks") ∧
    (rollup ≠ [] → (countsOf rollup).failure > 0 →
      checkSummary rollup = some ("❌ " ++ toString (countsOf rollup).failure ++ "/" ++
        toString rollup.length ++ " failed")) ∧
    (rollup ≠ [] → (countsOf rollup).failure = 0 → (countsOf rollup).pending > 0 →
      checkSummary rollup = some ("⏳ " ++ toString (countsOf rollup).pending ++ "/" ++
        toString rollup.length ++ " pending")) ∧
    (rollup ≠ [] → (countsOf rollup).failure = 0 → (countsOf rollup).pending = 0 →
      (countsOf rollup).success > 0 →
      checkSummary rollup = some ("✅ " ++ toString (countsOf rollup).success ++ "/" ++
        toString rollup.length ++ " passed")) ∧
    (rollup ≠ [] → (countsOf rollup).failure = 0 → (countsOf rollup).pending = 0 →
      (countsOf rollup).success = 0 →
      checkSummary rollup = some ("⚪ " ++ toString (countsOf rollup).skipped ++ "/" ++
        toString rollup.length ++ " skipped")) ∧
    checkSummary [successCheck, failureCheck, pendingCheck] = some "❌ 1/3 failed" := by
  have htally := tallyChecks_eq_countsOf rollup h
  refine ⟨by decide, ?_, ?_, ?_, ?_, by decide⟩
  · intro hne hf
    have hempty : rollup.isEmpty = false := by simpa [List.isEmpty_iff] using hne
    simp [checkSummary, hempty, htally, hf]
  · intro hne hf hp
    have hempty : rollup.isEmpty = false := by simpa [List.isEmpty_iff] using hne
    simp [checkSummary, hempty, htally, hf, hp]
  · intro hne hf hp hs
    have hempty : rollup.isEmpty = false := by simpa [List.isEmpty_iff] using hne
    simp [checkSummary, hempty, htally, hf, hp, hs]
  · intro hne hf hp hs
    have hempty : rollup.isEmpty = false := by simpa [List.isEmpty_iff] using hne
    simp [checkSummary, hempty, htally, hf, hp, hs]

/-- Witness for C1 at the documented example `[success, failure, pending]`. -/
theorem C1_witness :
    checkSummary [successCheck, failureCheck, pendingCheck] = some "❌ 1/3 failed" :=
  (C1_check_summary_priority [successCheck, failureCheck, pendingCheck]
    (by decide)).2.2.2.2.2

/-- C9 counterexample: a well-formed CheckRun entry whose `conclusion` key is
present with JSON `null` makes the per-check classification raise
(`dict.get("conclusion", "")` returns `None`, and `None.upper()` raises
`AttributeError`); no summary is produced, refuting the claimed totality. -/
theorem C9_counterexample :
    classifyCheck nullConclusionCheck = none ∧
    checkSummary [nullConclusionCheck] = none := by decide

/-- C9 amended: the classification is total — a summary is produced without
an exception — provided every CheckRun's `conclusion` and every
StatusContext's `state` field is absent or a string (never a present
`null`). -/
theorem C9_amended_classification_total (rollup : List Check)
    (h : ∀ c ∈ rollup,
      (c.typename = .jstr "CheckRun" → c.conclusion ≠ .jnull) ∧
      (c.typename = .jstr "StatusContext" → c.state ≠ .jnull)) :
    (checkSummary rollup).isSome := by
  have hall : ∀ c ∈ rollup, (classifyCheck c).isSome := by
    intro c hc
    obtain ⟨h1, h2⟩ := h c hc
    unfold classifyCheck
    by_cases ht : jEqStr c.typename "CheckRun"
    · rw [if_pos ht]
      have hcc : c.conclusion ≠ .jnull := h1 (by simpa [jEqStr] using ht)
      cases hcon : c.conclusion <;> simp_all [jGetUpper]
    · rw [if_neg ht]
      by_cases ht2 : jEqStr c.typename "StatusContext"
      · rw [if_pos ht2]
        have hss : c.state ≠ .jnull := h2 (by simpa [jEqStr] using ht2)
        cases hst : c.state <;> simp_all [jGetUpper]
      · rw [if_neg ht2]
        rfl
  unfold checkSummary
  rw [tallyChecks_eq_countsOf rollup hall]
  split <;> simp

/-- Witness for C9's amended theorem on a rollup with a pending check run
whose `conclusion` is absent. -/
theorem C9_witness : (checkSummary [successCheck, pendingCheck]).isSome :=
  C9_amended_classification_total [successCheck, pendingCheck] (by decide)

/-! ## Command handlers

Each Typer command is a straight-line script of external-process calls.  An
`Env` is an oracle fixing the outside world: the result of every captured
invocation (`run_git_command`), the exit code of every streamed invocation
(`subprocess.run` without capture), filesystem queries, and the parse of the
PR-listing JSON.  A handler returns the `Trace` of its effects together with
its `Outcome`. -/

/-- Result of `subprocess.run(cmd, capture_output=True, text=True)`. -/
structure GitResult where
  exitCode : Int
  stdout : String
  stderr : String

/-- Python `str.strip()` (ASCII whitespace fragment). -/
def pyStripStr (s : String) : String := ⟨stripBy pyIsSpace s.data⟩

/-- Split at every occurrence of `sep` (Python `str.split(sep)` for a
one-character separator); the empty list of characters yields `[[]]`. -/
def splitOnChar (sep : Char) : List Char → List (List Char)
  | [] => [[]]
  | c :: rest =>
    match splitOnChar sep rest with
    | [] => [[]]
    | h :: t => if c = sep then [] :: h :: t else (c :: h) :: t

/-- Python `s.split(sep)` for a one-character separator. -/
def pySplit (s : String) (sep : Char) : List String :=
  (splitOnChar sep s.data).map (fun l => ⟨l⟩)

/-- Python `s[:n]`. -/
def pyTake (s : String) (n : Nat) : String := ⟨s.data.take n⟩

/-- Python `s.startswith(p)`. -/
def pyStartsWith (s p : String) : Bool := p.data.isPrefixOf s.data

/-- Python `sep.join(xs)`. -/
def pyJoin (sep : String) : List String → String
  | [] => ""
  | [x] => x
  | x :: y :: xs => x ++ sep ++ pyJoin sep (y :: xs)

/-- One PR object of the parsed `gh pr list` JSON, restricted to the
requested fields. -/
structure PRItem where
  number : Int
  title : String
  headRefName : String
  rollup : List Check

/-- The outside world: captured runs, streamed runs, filesystem, JSON
parsing.  Paths are lists of `/`-separated segments. -/
structure Env where
  run : List String → GitResult
  stream : List String → Int
  dotGitExists : Bool
  ghOnPath : Bool
  cwd : List String
  pathExists : List String → Bool
  jsonParse : String → Option (List PRItem)

/-- `run_git_command` (src/gpp/main.py:19-22): captured run with stripped
stdout/stderr. -/
def runGit (env : Env) (cmd : List String) : GitResult :=
  let r := env.run cmd
  ⟨r.exitCode, pyStripStr r.stdout, pyStripStr r.stderr⟩

/-- Effects of one handler invocation, in order within each list. -/
structure Trace where
  cmds : List (List String) := []
  streamed : List (List String) := []
  echoes : List String := []
  symlinks : List (List String × List String) := []

def Trace.addC (t : Trace) (c : List String) : Trace := { t with cmds := t.cmds ++ [c] }

def Trace.addS (t : Trace) (c : List String) : Trace :=
  { t with streamed := t.streamed ++ [c] }

def Trace.addE (t : Trace) (e : String) : Trace := { t with echoes := t.echoes ++ [e] }

def Trace.addLink (t : Trace) (loc tgt : List String) : Trace :=
  { t with symlinks := t.symlinks ++ [(loc, tgt)] }

/-- How a handler finished: normal return, `typer.Exit(code)`, or an
uncaught Python exception. -/
inductive Outcome where
  | ok
  | exited (code : Int)
  | raised
deriving DecidableEq, Repr

/-- Trace of `check_git_repo` failing (src/gpp/main.py:25-29). -/
def notARepo : Trace × Outcome :=
  ({ echoes := ["Error: Not in a git repository"] }, .exited 1)

/-- Trace of the missing-`gh` guard firing. -/
def noGh (t : Trace) : Trace × Outcome :=
  (t.addE "Error: GitHub CLI 'gh' not found. Install from https://cli.github.com/",
    .exited 1)

def statusCmd : List String := ["git", "status", "--porcelain"]

def checkoutMaster : List String := ["git", "checkout", "master"]

def pullMaster : List String := ["git", "pull", "origin", "master"]

def stashPopCmd : List String := ["git", "stash", "pop"]

def revParseHead : List String := ["git", "rev-parse", "--abbrev-ref", "HEAD"]

/-- Tail of `move` after the conditional stash (src/gpp/main.py:80-110). -/
def moveTail (env : Env) (t : Trace) (stash_created : Bool) (b : String) :
    Trace × Outcome :=
  let t := (t.addE "Switching to master...").addC checkoutMaster
  let r := runGit env checkoutMaster
  if r.exitCode ≠ 0 then
    (t.addE ("Error switching to master: " ++ r.stderr), .exited 1) else
  let t := (t.addE "Pulling latest changes from origin...").addC pullMaster
  let r := runGit env pullMaster
  if r.exitCode ≠ 0 then
    (t.addE ("Error pulling from origin: " ++ r.stderr), .exited 1) else
  let nb := ["git", "checkout", "-b", b]
  let t := (t.addE ("Creating and switching to branch: " ++ b)).addC nb
  let r := runGit env nb
  if r.exitCode ≠ 0 then
    (t.addE ("Error creating branch: " ++ r.stderr), .exited 1) else
  if stash_created then
    let t := (t.addE "Applying stashed changes...").addC stashPopCmd
    let r := runGit env stashPopCmd
    if r.exitCode ≠ 0 then
      ((t.addE ("Error applying stashed changes: " ++ r.stderr)).addE
        "Your changes are still in the stash. Use 'git stash pop' to apply them manually.",
        .exited 1)
    else (t.addE ("✅ Successfully moved to branch '" ++ b ++ "'"), .ok)
  else (t.addE ("✅ Successfully moved to branch '" ++ b ++ "'"), .ok)

/-- `move` (src/gpp/main.py:45-110). -/
def move (env : Env) (branch_name : String) : Trace × Outcome :=
  if env.dotGitExists = false then notARepo else
  let t : Trace := { echoes := ["Moving changes to new branch: " ++ branch_name] }
  let t := t.addC statusCmd
  let r := runGit env statusCmd
  if r.exitCode ≠ 0 then
    (t.addE ("Error checking git status: " ++ r.stderr), .exited 1) else
  let has_changes := pyStripStr r.stdout ≠ ""
  if has_changes then
    let stashCmd := ["git", "stash", "push", "-m", "gpp move to " ++ branch_name]
    let t := (t.addE "Stashing current changes...").addC stashCmd
    let rs := runGit env stashCmd
    if rs.exitCode ≠ 0 then
      (t.addE ("Error stashing changes: " ++ rs.stderr), .exited 1)
    else moveTail env t true branch_name
  else moveTail env (t.addE "No unstaged changes to stash") false branch_name

/-- The cherry-pick loop of `cherry` (src/gpp/main.py:252-262); `idx` is the
1-based position. -/
def cherryPickLoop (env : Env) (t : Trace) (total idx : Nat) :
    List String → Trace × Bool
  | [] => (t, true)
  | h :: rest =>
    let msg := if total > 1 then
        "Cherry-picking commit " ++ toString idx ++ "/" ++ toString total ++ ": " ++
          h.take 8
      else "Cherry-picking commit: " ++ h.take 8
    let cmd := ["git", "cherry-pick", h]
    let t := (t.addE msg).addC cmd
    let r := runGit env cmd
    if r.exitCode ≠ 0 then
      ((t.addE ("Error cherry-picking commit " ++ pyTake h 8 ++ ": " ++ r.stderr)).addE
        "You may need to resolve conflicts manually", false)
    else cherryPickLoop env t total (idx + 1) rest

/-- Tail of `cherry` from the switch to master onwards
(src/gpp/main.py:229-293). -/
def cherryTail (env : Env) (t : Trace) (title original_branch : String)
    (merge : Bool) (body : Option String) (commits_to_pick : List String) :
    Trace × Outcome :=
  let t := (t.addE "Switching to master...").addC checkoutMaster
  let r := runGit env checkoutMaster
  if r.exitCode ≠ 0 then
    (t.addE ("Error switching to master: " ++ r.stderr), .exited 1) else
  let t := (t.addE "Pulling latest changes from origin...").addC pullMaster
  let r := runGit env pullMaster
  if r.exitCode ≠ 0 then
    (t.addE ("Error pulling from origin: " ++ r.stderr), .exited 1) else
  let branch_name := title_to_branch_name title
  let nb := ["git", "checkout", "-b", branch_name]
  let t := (t.addE ("Creating new branch: " ++ branch_name)).addC nb
  let r := runGit env nb
  if r.exitCode ≠ 0 then
    (t.addE ("Error creating branch: " ++ r.stderr), .exited 1) else
  match cherryPickLoop env t commits_to_pick.length 1 commits_to_pick with
  | (t, false) => (t, .exited 1)
  | (t, true) =>
    let push := ["git", "push", "-u", "origin", branch_name]
    let t := (t.addE ("Pushing branch '" ++ branch_name ++ "' to origin...")).addC push
    let r := runGit env push
    if r.exitCode ≠ 0 then
      (t.addE ("Error pushing branch: " ++ r.stderr), .exited 1) else
    let pr_body := body.getD title
    let pr_cmd := ["gh", "pr", "create", "--title", title, "--body", pr_body] ++
      (if merge then ["--label", "merge"] else [])
    let t := (t.addE "Creating pull request...").addS pr_cmd
    let code := env.stream pr_cmd
    if code ≠ 0 then
      (t.addE "Error creating PR, but branch was created successfully", .exited code) else
    let back := ["git", "checkout", original_branch]
    let t := (t.addE ("Switching back to original branch: " ++ original_branch)).addC back
    let r := runGit env back
    if r.exitCode ≠ 0 then
      ((t.addE ("Error switching back to original branch: " ++ r.stderr)).addE
        ("You are currently on branch: " ++ branch_name), .exited 1)
    else
      (((t.addE "✅ Cherry-pick workflow completed successfully!").addE
          ("   Branch created: " ++ branch_name)).addE
        ("   Original branch: " ++ original_branch), .ok)

/-- `cherry` (src/gpp/main.py:139-293). -/
def cherry (env : Env) (title : String) (merge : Bool) (num_commits : Option Int)
    (body : Option String) : Trace × Outcome :=
  if env.dotGitExists = false then notARepo else
  if env.ghOnPath = false then noGh {} else
  let t : Trace := { cmds := [revParseHead] }
  let r := runGit env revParseHead
  if r.exitCode ≠ 0 then
    (t.addE ("Error getting current branch: " ++ r.stderr), .exited 1) else
  let original_branch := pyStripStr r.stdout
  let t := t.addE ("Starting cherry-pick workflow from branch: " ++ original_branch)
  let t := t.addC statusCmd
  let rs := runGit env statusCmd
  if rs.exitCode ≠ 0 then
    (t.addE ("Error checking git status: " ++ rs.stderr), .exited 1) else
  let has_unstaged_changes := pyStripStr rs.stdout ≠ ""
  if num_commits.isSome ∧ has_unstaged_changes then
    ((t.addE "Error: Cannot use -n flag when there are unstaged commits.").addE
      "Please commit or stash your changes first.", .exited 1) else
  if has_unstaged_changes then
    let t := (t.addE "Committing unstaged changes...").addC ["git", "add", "-A"]
    let r := runGit env ["git", "add", "-A"]
    if r.exitCode ≠ 0 then
      (t.addE ("Error staging changes: " ++ r.stderr), .exited 1) else
    let t := t.addC ["git", "commit", "-m", title]
    let r := runGit env ["git", "commit", "-m", title]
    if r.exitCode ≠ 0 then
      (t.addE ("Error creating commit: " ++ r.stderr), .exited 1) else
    let t := t.addC ["git", "rev-parse", "HEAD"]
    let r := runGit env ["git", "rev-parse", "HEAD"]
    if r.exitCode ≠ 0 then
      (t.addE ("Error getting commit hash: " ++ r.stderr), .exited 1) else
    cherryTail env t title original_branch merge body [pyStripStr r.stdout]
  else
    let num_to_get : Int := num_commits.getD 1
    let t := t.addE ("Getting last " ++ toString num_to_get ++ " commit" ++
      (if num_to_get > 1 then "s" else "") ++ " to cherry-pick")
    let revList := ["git", "rev-list", "--reverse",
      "HEAD~" ++ toString num_to_get ++ "..HEAD"]
    let t := t.addC revList
    let r := runGit env revList
    if r.exitCode ≠ 0 then
      (t.addE ("Error getting commit hashes: " ++ r.stderr), .exited 1) else
    let commits_to_pick :=
      if pyStripStr r.stdout ≠ "" then pySplit (pyStripStr r.stdout) '\n' else []
    if (commits_to_pick.length : Int) ≠ num_to_get then
      (t.addE ("Error: Could only find " ++ toString commits_to_pick.length ++
        " commits, but " ++ toString num_to_get ++ " were requested"), .exited 1)
    else cherryTail env t title original_branch merge body commits_to_pick

/-! ## Paths and the worktree helpers -/

/-- Path as `/`-separated segments (`"/a/b"` maps to `["", "a", "b"]`). -/
def parsePath (s : String) : List String := pySplit s '/'

/-- Render a segment list back to text. -/
def pathStr (p : List String) : String := pyJoin "/" p

/-- Python `Path(...).name` on our representation. -/
def pathName (p : List String) : String := p.getLastD ""

/-- `Path(base) / seg` (a segment containing `/` contributes several
components, as in Python's `PurePath`). -/
def pathJoin (base : List String) (seg : String) : List String :=
  base ++ pySplit seg '/'

/-- The character set of Python `s.rstrip(".git")`. -/
def inGitChars (c : Char) : Bool := c = '.' ∨ c = 'g' ∨ c = 'i' ∨ c = 't'

/-- Python `s.rstrip(".git")`: drop trailing characters belonging to the SET
of characters of ".git" — not suffix removal. -/
def pyRstripGit (s : String) : String :=
  ⟨(s.data.reverse.dropWhile inGitChars).reverse⟩

def notSpaceChar (c : Char) : Bool := ¬ c = ' '

/-- Python `line.split(" ", 1)[1]` for lines that contain a space: the text
after the first space. -/
def afterFirstSpace (s : String) : String :=
  ⟨(s.data.dropWhile notSpaceChar).drop 1⟩

/-- Python `line.split("/")[-1]`. -/
def lastSegStr (s : String) : String := (pySplit s '/').getLastD ""

/-- Python `stdout.split("\n")`. -/
def linesOf (s : String) : List String := pySplit s '\n'

def remoteGetUrl : List String := ["git", "remote", "get-url", "origin"]

def worktreeListPorcelain : List String := ["git", "worktree", "list", "--porcelain"]

def worktreeListCmd : List String := ["git", "worktree", "list"]

/-- `get_repo_name` (src/gpp/main.py:541-547): last `/`-segment of the
`.git`-character-stripped origin URL, or the working directory's name when
the remote query fails. -/
def get_repo_name (env : Env) : String :=
  let r := runGit env remoteGetUrl
  if r.exitCode = 0 ∧ r.stdout ≠ "" then lastSegStr (pyRstripGit r.stdout)
  else pathName env.cwd

/-- `get_main_worktree` (src/gpp/main.py:550-557): path on the first
`worktree ` line of the porcelain listing, else the working directory. -/
def get_main_worktree (env : Env) : List String :=
  let r := runGit env worktreeListPorcelain
  if r.exitCode = 0 ∧ r.stdout ≠ "" then
    match (linesOf r.stdout).find? (fun l => pyStartsWith l "worktree ") with
    | some l => parsePath (afterFirstSpace l)
    | none => env.cwd
  else env.cwd

/-- The sibling directory `{main_worktree.parent}/{repo_name}-{branch}`
computed by `wt_create`. -/
def wtPath (env : Env) (branch : String) : List String :=
  pathJoin (get_main_worktree env).dropLast (get_repo_name env ++ "-" ++ branch)

/-- The `git worktree add` invocation of `wt_create` (lines 590-593). -/
def wtAddCmd (env : Env) (branch : String) (new_branch : Bool) : List String :=
  if new_branch then
    ["git", "worktree", "add", pathStr (wtPath env branch), "-b", branch]
  else ["git", "worktree", "add", pathStr (wtPath env branch), branch]

/-- `wt_create` (src/gpp/main.py:560-612). -/
def wt_create (env : Env) (branch : String) (new_branch shell : Bool) :
    Trace × Outcome :=
  if env.dotGitExists = false then notARepo else
  let t : Trace := { cmds := [remoteGetUrl, worktreeListPorcelain] }
  let repo_name := get_repo_name env
  let main_worktree := get_main_worktree env
  let worktree_path := wtPath env branch
  if env.pathExists worktree_path then
    (t.addE ("Error: Directory already exists: " ++ pathStr worktree_path),
      .exited 1) else
  let t := if shell then t
    else t.addE ("Creating worktree at " ++ pathStr worktree_path ++ "...")
  let cmd := wtAddCmd env branch new_branch
  let t := t.addC cmd
  let r := runGit env cmd
  if r.exitCode ≠ 0 then
    (t.addE ("Error creating worktree: " ++ r.stderr), .exited 1) else
  let t :=
    if env.pathExists (main_worktree ++ [".envrc"]) then
      let t := t.addLink (worktree_path ++ [".envrc"]) ["..", repo_name, ".envrc"]
      if shell then t
      else t.addE ("Created .envrc symlink -> " ++ pathStr ["..", repo_name, ".envrc"])
    else t
  if shell then
    (t.addE ("cd \"" ++ pathStr worktree_path ++ "\" && uv sync"), .ok)
  else
    ((t.addE ("✅ Worktree created at " ++ pathStr worktree_path)).addE
      ("   Run: cd " ++ pathStr worktree_path ++ " && uv sync"), .ok)

/-- Resolve a relative symlink target against the directory holding the
link; a `".."` component steps up one directory. -/
def resolveRel (base : List String) : List String → List String
  | [] => base
  | seg :: rest =>
    if seg = ".." then resolveRel base.dropLast rest
    else resolveRel (base ++ [seg]) rest

/-- The scanning loop of `find_worktree_by_branch`
(src/gpp/main.py:620-629): remember the last `worktree ` line, and return it
at the first `branch ` line whose final `/`-segment equals the name. -/
def findWtLoop (branch : String) :
    List String → Option (List String) → Option (List String)
  | [], _ => none
  | l :: rest, cur =>
    if pyStartsWith l "worktree " then
      findWtLoop branch rest (some (parsePath (afterFirstSpace l)))
    else if pyStartsWith l "branch " ∧ cur.isSome then
      if lastSegStr l = branch then cur else findWtLoop branch rest cur
    else findWtLoop branch rest cur

/-- `find_worktree_by_branch` (src/gpp/main.py:615-629). -/
def find_worktree_by_branch (env : Env) (branch : String) : Option (List String) :=
  let r := runGit env worktreeListPorcelain
  if r.exitCode ≠ 0 then none
  else findWtLoop branch (linesOf r.stdout) none

/-- `wt_delete` (src/gpp/main.py:632-670). -/
def wt_delete (env : Env) (branch : String) (force keep_branch : Bool) :
    Trace × Outcome :=
  if env.dotGitExists = false then notARepo else
  let t : Trace := { cmds := [worktreeListPorcelain] }
  match find_worktree_by_branch env branch with
  | none => (t.addE ("Error: No worktree found for branch: " ++ branch), .exited 1)
  | some wp =>
    let t := t.addE ("Removing worktree at " ++ pathStr wp ++ "...")
    let cmd := ["git", "worktree", "remove", pathStr wp] ++
      (if force then ["--force"] else [])
    let t := t.addC cmd
    let r := runGit env cmd
    if r.exitCode ≠ 0 then
      (t.addE ("Error removing worktree: " ++ r.stderr), .exited 1) else
    if keep_branch = false then
      let t := (t.addE ("Deleting branch " ++ branch ++ "...")).addC
        ["git", "branch", "-D", branch]
      let r2 := runGit env ["git", "branch", "-D", branch]
      let t := if r2.exitCode ≠ 0 then
          t.addE ("Warning: Could not delete branch: " ++ r2.stderr)
        else t.addE ("Deleted branch " ++ branch)
      (t.addE "✅ Worktree removed", .ok)
    else (t.addE "✅ Worktree removed", .ok)

/-- First whitespace-separated token of a line (`line.split()[0]`); `none`
models the `IndexError` on a line with no token. -/
def firstToken (s : String) : Option String :=
  match s.data.dropWhile pyIsSpace with
  | [] => none
  | c :: rest => some ⟨c :: rest.takeWhile (fun x => !pyIsSpace x)⟩

/-- Whether `wt_list` keeps a non-empty listing line whose path token is
`tok` (src/gpp/main.py:705-711): the main worktree itself, or a direct
sibling named `{repo_name}-...`. -/
def keepWtLine (repo_name : String) (main_worktree : List String)
    (tok : String) : Bool :=
  let wp := parsePath tok
  wp = main_worktree ∨
    (wp.dropLast = main_worktree.dropLast ∧
      pyStartsWith (pathName wp) (repo_name ++ "-"))

/-- The filtering loop of `wt_list` (src/gpp/main.py:701-712); `none` models
the `IndexError` of `line.split()[0]` on a whitespace-only line. -/
def wtListFilter (repo_name : String) (main_worktree : List String) :
    List String → Option (List String)
  | [] => some []
  | l :: rest =>
    if l = "" then wtListFilter repo_name main_worktree rest
    else match firstToken l with
      | none => none
      | some tok =>
        match wtListFilter repo_name main_worktree rest with
        | none => none
        | some fs =>
          some (if keepWtLine repo_name main_worktree tok then l :: fs else fs)

/-- `wt_list` (src/gpp/main.py:673-717). -/
def wt_list (env : Env) (all_worktrees : Bool) : Trace × Outcome :=
  if env.dotGitExists = false then notARepo else
  let t : Trace := { cmds := [worktreeListCmd] }
  let r := runGit env worktreeListCmd
  if r.exitCode ≠ 0 then
    (t.addE ("Error listing worktrees: " ++ r.stderr), .exited 1) else
  if r.stdout = "" then (t.addE "No worktrees found", .ok) else
  if all_worktrees then (t.addE r.stdout, .ok) else
  let repo_name := get_repo_name env
  let main_worktree := get_main_worktree env
  let t := (t.addC remoteGetUrl).addC worktreeListPorcelain
  match wtListFilter repo_name main_worktree (linesOf (pyStripStr r.stdout)) with
  | none => (t, .raised)
  | some [] =>
    (t.addE "No ghg-managed worktrees found (use --all to see all worktrees)", .ok)
  | some fs => (t.addE (pyJoin "\n" fs), .ok)

/-! ## `branch` and `list_prs` -/

def forEachRefCmd : List String :=
  ["git", "for-each-ref", "--sort=-committerdate", "--count=10",
    "--format=%(refname:short)|%(committerdate:relative)", "refs/heads/"]

/-- `branch` (src/gpp/main.py:296-332); the rich-table rendering is
presentation only and not modelled.  A failing `for-each-ref` exits with the
child's own code (line 313). -/
def branch (env : Env) : Trace × Outcome :=
  if env.dotGitExists = false then notARepo else
  let t : Trace := { cmds := [forEachRefCmd] }
  let r := runGit env forEachRefCmd
  if r.exitCode ≠ 0 then
    (t.addE ("Error fetching branches: " ++ r.stderr), .exited r.exitCode) else
  if pyStripStr r.stdout = "" then (t.addE "No branches found", .ok)
  else (t, .ok)

def ghPrListCmd (author : String) : List String :=
  ["gh", "pr", "list", "--author", author, "--json",
    "number,title,headRefName,statusCheckRollup"]

/-- `list_prs` (src/gpp/main.py:361-455).  `json.loads` is the `jsonParse`
oracle; table rendering is not modelled; a `none` check summary (the
`AttributeError` inside the classification loop) surfaces as
`Outcome.raised`.  A failing PR listing exits with the child's own code
(line 384). -/
def list_prs (env : Env) (author : String) : Trace × Outcome :=
  if env.dotGitExists = false then notARepo else
  if env.ghOnPath = false then noGh {} else
  let t : Trace := { cmds := [ghPrListCmd author] }
  let r := runGit env (ghPrListCmd author)
  if r.exitCode ≠ 0 then
    (t.addE ("Error fetching PRs: " ++ r.stderr), .exited r.exitCode) else
  if pyStripStr r.stdout = "" then (t.addE "No PRs found", .ok) else
  match env.jsonParse r.stdout with
  | none => (t.addE "Error parsing PR data", .exited 1)
  | some prs =>
    if prs.all (fun p => (checkSummary p.rollup).isSome) then (t, .ok)
    else (t, .raised)

/-! ## C3: `cherry` rejects `--num` together with uncommitted changes -/

/-- A `git` invocation that mutates repository state: add, commit, checkout,
cherry-pick, push, stash. -/
def isMutatingGit (cmd : List String) : Bool :=
  cmd.take 2 = ["git", "add"] ∨ cmd.take 2 = ["git", "commit"] ∨
  cmd.take 2 = ["git", "checkout"] ∨ cmd.take 2 = ["git", "cherry-pick"] ∨
  cmd.take 2 = ["git", "push"] ∨ cmd.take 2 = ["git", "stash"]

/-- C3: when `--num` is supplied (in particular with a nonzero value) and
the `git status` query reports uncommitted changes, `cherry` exits with code
1 right after the two read-only queries — no add, commit, checkout,
cherry-pick, push or stash is invoked and nothing is streamed — whatever the
`--merge` and `--body` flags are. -/
theorem C3_cherry_num_with_changes_rejected (env : Env) (title : String)
    (merge : Bool) (n : Int) (body : Option String)
    (hrepo : env.dotGitExists = true) (hgh : env.ghOnPath = true)
    (hrev : (runGit env revParseHead).exitCode = 0)
    (hst : (runGit env statusCmd).exitCode = 0)
    (hchanges : pyStripStr (runGit env statusCmd).stdout ≠ "") (_hn : n ≠ 0) :
    (cherry env title merge (some n) body).2 = .exited 1 ∧
    (cherry env title merge (some n) body).1.cmds = [revParseHead, statusCmd] ∧
    (∀ c ∈ (cherry env title merge (some n) body).1.cmds, isMutatingGit c = false) ∧
    (cherry env title merge (some n) body).1.streamed = [] ∧
    "Error: Cannot use -n flag when there are unstaged commits." ∈
      (cherry env title merge (some n) body).1.echoes := by
  have hkey : cherry env title merge (some n) body =
      (((((Trace.mk [revParseHead] [] [] []).addE
          ("Starting cherry-pick workflow from branch: " ++
            pyStripStr (runGit env revParseHead).stdout)).addC statusCmd).addE
        "Error: Cannot use -n flag when there are unstaged commits.").addE
        "Please commit or stash your changes first.", .exited 1) := by
    unfold cherry
    rw [hrepo, hgh]
    simp [hrev, hst, hchanges]
  refine ⟨by rw [hkey], by rw [hkey]; rfl, ?_, by rw [hkey]; rfl,
    by rw [hkey]; simp [Trace.addE, Trace.addC]⟩
  intro c hc
  rw [hkey] at hc
  have hm : c ∈ [revParseHead, statusCmd] := hc
  simp only [List.mem_cons, List.not_mem_nil, or_false] at hm
  rcases hm with rfl | rfl
  · decide
  · decide

/-- Witness environment for C3: a repo with uncommitted changes. -/
def envC3 : Env :=
  { run := fun c => if c = statusCmd then ⟨0, " M file.py", ""⟩ else ⟨0, "main", ""⟩,
    stream := fun _ => 0,
    dotGitExists := true, ghOnPath := true,
    cwd := ["", "home", "u", "repo"],
    pathExists := fun _ => false,
    jsonParse := fun _ => none }

theorem C3_witness :
    (cherry envC3 "My title" true (some 2) (some "body")).2 = .exited 1 ∧
    (cherry envC3 "My title" true (some 2) (some "body")).1.cmds =
      [revParseHead, statusCmd] := by
  have h := C3_cherry_num_with_changes_rejected envC3 "My title" true 2 (some "body")
    rfl rfl (by decide) (by decide) (by decide) (by decide)
  exact ⟨h.1, h.2.1⟩

/-! ## C6: `move` and the stash -/

/-- With no stash created, the tail of `move` only ever runs the checkout,
pull and branch-creation commands. -/
theorem moveTail_false_mem (env : Env) (t : Trace) (b : String) :
    ∀ c ∈ (moveTail env t false b).1.cmds,
      c ∈ t.cmds ∨ c ∈ [checkoutMaster, pullMaster, ["git", "checkout", "-b", b]] := by
  intro c hc
  simp only [moveTail] at hc
  split_ifs at hc <;>
    simp only [Trace.addE, Trace.addC, List.mem_append, List.mem_singleton,
      List.mem_cons, List.not_mem_nil, or_false] at hc ⊢ <;>
    tauto

/-- C6: (a) if the initial `git status` reports no uncommitted changes,
`move` never runs any `git stash` command (neither push nor pop); (b) if a
stash was created and every later step up to `git stash pop` succeeds while
the pop itself fails, `move` exits 1 with the explicit message pointing the
user at the stash, and the pop is the last command issued (no recovery
follows). -/
theorem C6_move_stash_discipline (env : Env) (b : String) :
    (pyStripStr (runGit env statusCmd).stdout = "" →
      ∀ c ∈ (move env b).1.cmds, c.take 2 ≠ ["git", "stash"]) ∧
    (env.dotGitExists = true →
      (runGit env statusCmd).exitCode = 0 →
      pyStripStr (runGit env statusCmd).stdout ≠ "" →
      (runGit env ["git", "stash", "push", "-m", "gpp move to " ++ b]).exitCode = 0 →
      (runGit env checkoutMaster).exitCode = 0 →
      (runGit env pullMaster).exitCode = 0 →
      (runGit env ["git", "checkout", "-b", b]).exitCode = 0 →
      (runGit env stashPopCmd).exitCode ≠ 0 →
      (move env b).2 = .exited 1 ∧
      "Your changes are still in the stash. Use 'git stash pop' to apply them manually."
        ∈ (move env b).1.echoes ∧
      (move env b).1.cmds.getLast? = some stashPopCmd) := by
  constructor
  · intro hempty c hc
    unfold move at hc
    by_cases h1 : env.dotGitExists = false
    · rw [if_pos h1] at hc
      simp [notARepo] at hc
    · rw [if_neg h1] at hc
      by_cases h2 : (runGit env statusCmd).exitCode ≠ 0
      · rw [if_pos h2] at hc
        simp only [Trace.addC, Trace.addE, List.nil_append, List.mem_singleton] at hc
        subst hc
        decide
      · rw [if_neg h2] at hc
        rw [if_neg (by simp [hempty])] at hc
        rcases moveTail_false_mem env _ b c hc with h | h
        · simp only [Trace.addE, Trace.addC, List.nil_append, List.mem_singleton] at h
          subst h
          decide
        · simp only [List.mem_cons, List.mem_singleton, List.not_mem_nil,
            or_false] at h
          rcases h with rfl | rfl | rfl
          · decide
          · decide
          · simp
  · intro hrepo hst hch hpush hco hpull hnb hpop
    have hkey : move env b =
        ({ cmds := [statusCmd, ["git", "stash", "push", "-m", "gpp move to " ++ b],
              checkoutMaster, pullMaster, ["git", "checkout", "-b", b], stashPopCmd],
           streamed := [],
           echoes := ["Moving changes to new branch: " ++ b,
              "Stashing current changes...", "Switching to master...",
              "Pulling latest changes from origin...",
              "Creating and switching to branch: " ++ b,
              "Applying stashed changes...",
              "Error applying stashed changes: " ++ (runGit env stashPopCmd).stderr,
              "Your changes are still in the stash. Use 'git stash pop' to apply them manually."],
           symlinks := [] }, .exited 1) := by
      unfold move moveTail
      rw [hrepo]
      simp [hst, hch, hpush, hco, hpull, hnb, hpop, Trace.addE, Trace.addC]
    rw [hkey]
    refine ⟨rfl, ?_, ?_⟩
    · simp
    · rfl

/-- Witness environment for C6 part (a): clean status. -/
def envC6a : Env :=
  { run := fun _ => ⟨0, "", ""⟩, stream := fun _ => 0,
    dotGitExists := true, ghOnPath := true,
    cwd := ["", "home", "u", "repo"], pathExists := fun _ => false,
    jsonParse := fun _ => none }

/-- Witness environment for C6 part (b): dirty status, failing stash pop. -/
def envC6b : Env :=
  { run := fun c =>
      if c = statusCmd then ⟨0, " M file.py", ""⟩
      else if c = stashPopCmd then ⟨1, "", "conflict"⟩
      else ⟨0, "", ""⟩,
    stream := fun _ => 0,
    dotGitExists := true, ghOnPath := true,
    cwd := ["", "home", "u", "repo"], pathExists := fun _ => false,
    jsonParse := fun _ => none }

theorem C6_witness :
    (∀ c ∈ (move envC6a "nb").1.cmds, c.take 2 ≠ ["git", "stash"]) ∧
    (move envC6b "nb").2 = .exited 1 ∧
    "Your changes are still in the stash. Use 'git stash pop' to apply them manually."
      ∈ (move envC6b "nb").1.echoes :=
  ⟨(C6_move_stash_discipline envC6a "nb").1 (by decide),
    ((C6_move_stash_discipline envC6b "nb").2 rfl (by decide) (by decide) (by decide)
      (by decide) (by decide) (by decide) (by decide)).1,
    ((C6_move_stash_discipline envC6b "nb").2 rfl (by decide) (by decide) (by decide)
      (by decide) (by decide) (by decide) (by decide)).2.1⟩

/-! ## C7: `wt_create` refuses an existing sibling path -/

/-- C7: when the computed sibling path already exists, `wt_create` exits
with code 1, never issues a `git worktree add`, and creates no symlink. -/
theorem C7_wt_create_existing_path (env : Env) (branch : String)
    (new_branch shell : Bool)
    (hex : env.pathExists (wtPath env branch) = true) :
    (wt_create env branch new_branch shell).2 = .exited 1 ∧
    (∀ c ∈ (wt_create env branch new_branch shell).1.cmds,
      c.take 3 ≠ ["git", "worktree", "add"]) ∧
    (wt_create env branch new_branch shell).1.symlinks = [] := by
  by_cases h1 : env.dotGitExists = false
  · have hkey : wt_create env branch new_branch shell = notARepo := by
      unfold wt_create
      rw [if_pos h1]
    rw [hkey]
    exact ⟨rfl, by decide, rfl⟩
  · have hkey : wt_create env branch new_branch shell =
        ({ cmds := [remoteGetUrl, worktreeListPorcelain], streamed := [],
           echoes := ["Error: Directory already exists: " ++ pathStr (wtPath env branch)],
           symlinks := [] }, .exited 1) := by
      unfold wt_create
      rw [if_neg h1]
      simp [hex, Trace.addE]
    rw [hkey]
    refine ⟨rfl, ?_, rfl⟩
    intro c hc
    have hm : c ∈ [remoteGetUrl, worktreeListPorcelain] := hc
    simp only [List.mem_cons, List.not_mem_nil, or_false] at hm
    rcases hm with rfl | rfl
    · decide
    · decide

/-- Witness environment for C7: the sibling directory already exists. -/
def envC7 : Env :=
  { run := fun c =>
      if c = remoteGetUrl then ⟨0, "https://github.com/u/repo", ""⟩
      else if c = worktreeListPorcelain then
        ⟨0, "worktree /home/u/repo\nHEAD abc\nbranch refs/heads/master", ""⟩
      else ⟨0, "", ""⟩,
    stream := fun _ => 0,
    dotGitExists := true, ghOnPath := true,
    cwd := ["", "home", "u", "repo"],
    pathExists := fun p => p = ["", "home", "u", "repo-feat"],
    jsonParse := fun _ => none }

theorem C7_witness :
    (wt_create envC7 "feat" true false).2 = .exited 1 ∧
    (wt_create envC7 "feat" true false).1.symlinks = [] :=
  ⟨(C7_wt_create_existing_path envC7 "feat" true false (by decide)).1,
    (C7_wt_create_existing_path envC7 "feat" true false (by decide)).2.2⟩

/-! ## C4: where the `.envrc` symlink points -/

theorem splitOnChar_of_not_mem {sep : Char} :
    ∀ {l : List Char}, (∀ c ∈ l, c ≠ sep) → splitOnChar sep l = [l] := by
  intro l
  induction l with
  | nil => intro _; rfl
  | cons c cs ih =>
    intro h
    have hc : c ≠ sep := h c (List.mem_cons_self _ _)
    have hrest := ih (fun x hx => h x (List.mem_cons_of_mem c hx))
    simp only [splitOnChar, hrest]
    rw [if_neg hc]

theorem resolveRel_nil (base : List String) : resolveRel base [] = base := rfl

theorem resolveRel_dotdot (base : List String) (rest : List String) :
    resolveRel base (".." :: rest) = resolveRel base.dropLast rest := by
  show (if (".." : String) = ".." then resolveRel base.dropLast rest
    else resolveRel (base ++ [".."]) rest) = resolveRel base.dropLast rest
  rw [if_pos rfl]

theorem resolveRel_seg (base : List String) {seg : String} (h : seg ≠ "..")
    (rest : List String) :
    resolveRel base (seg :: rest) = resolveRel (base ++ [seg]) rest := by
  show (if seg = ".." then resolveRel base.dropLast rest
    else resolveRel (base ++ [seg]) rest) = resolveRel (base ++ [seg]) rest
  rw [if_neg h]

/-- Counterexample environment for C4: the origin URL's final segment
(`other`) differs from the main worktree's directory name (`proj`). -/
def envC4 : Env :=
  { run := fun c =>
      if c = remoteGetUrl then ⟨0, "https://github.com/u/other.git", ""⟩
      else if c = worktreeListPorcelain then
        ⟨0, "worktree /home/u/proj\nHEAD abc\nbranch refs/heads/master", ""⟩
      else ⟨0, "", ""⟩,
    stream := fun _ => 0,
    dotGitExists := true, ghOnPath := true,
    cwd := ["", "home", "u", "proj"],
    pathExists := fun p => p = ["", "home", "u", "proj", ".envrc"],
    jsonParse := fun _ => none }

/-- C4 counterexample: in `envC4` the main working copy has a root-level
`.envrc`, yet the relative symlink `wt_create` places in the new worktree
resolves to `/home/u/other/.envrc`, not to the main working copy's
`/home/u/proj/.envrc`. -/
theorem C4_counterexample :
    envC4.pathExists (get_main_worktree envC4 ++ [".envrc"]) = true ∧
    (wt_create envC4 "feat" true false).1.symlinks.map
        (fun pr => resolveRel pr.1.dropLast pr.2) =
      [["", "home", "u", "other", ".envrc"]] ∧
    get_main_worktree envC4 ++ [".envrc"] = ["", "home", "u", "proj", ".envrc"] ∧
    (["", "home", "u", "other", ".envrc"] : List String) ≠
      ["", "home", "u", "proj", ".envrc"] := by decide

/-- C4 amended: whenever `wt_create` reaches the symlink step, the link it
creates inside the new worktree is `.envrc -> ../{repo_name}/.envrc`, which
resolves to `{main_parent}/{repo_name}/.envrc`; that is the main working
copy's `.envrc` exactly when the computed repo name (origin URL last
segment after `.git`-character stripping, or the cwd name) equals the main
worktree's directory name. -/
theorem C4_amended_envrc_symlink (env : Env) (branch : String)
    (new_branch shell : Bool)
    (hrepo : env.dotGitExists = true)
    (hnex : env.pathExists (wtPath env branch) = false)
    (hadd : (runGit env (wtAddCmd env branch new_branch)).exitCode = 0)
    (henvrc : env.pathExists (get_main_worktree env ++ [".envrc"]) = true)
    (hslash : ∀ c ∈ branch.data, c ≠ '/')
    (hrn : ∀ c ∈ (get_repo_name env).data, c ≠ '/')
    (hdot : get_repo_name env ≠ "..")
    (hmw : get_main_worktree env ≠ []) :
    (wt_create env branch new_branch shell).1.symlinks =
      [(wtPath env branch ++ [".envrc"], ["..", get_repo_name env, ".envrc"])] ∧
    resolveRel (wtPath env branch) ["..", get_repo_name env, ".envrc"] =
      (get_main_worktree env).dropLast ++ [get_repo_name env, ".envrc"] ∧
    (resolveRel (wtPath env branch) ["..", get_repo_name env, ".envrc"] =
        get_main_worktree env ++ [".envrc"] ↔
      get_repo_name env = pathName (get_main_worktree env)) := by
  have hseg : wtPath env branch =
      (get_main_worktree env).dropLast ++ [get_repo_name env ++ "-" ++ branch] := by
    have hfree : ∀ c ∈ (get_repo_name env ++ "-" ++ branch).data, c ≠ '/' := by
      intro c hc
      rw [String.data_append, String.data_append] at hc
      rcases List.mem_append.mp hc with hc | hc
      · rcases List.mem_append.mp hc with hc | hc
        · exact hrn c hc
        · simp only [List.mem_singleton] at hc
          subst hc
          decide
      · exact hslash c hc
    unfold wtPath pathJoin
    congr 1
    unfold pySplit
    rw [splitOnChar_of_not_mem hfree]
    rfl
  have hres : resolveRel (wtPath env branch) ["..", get_repo_name env, ".envrc"] =
      (get_main_worktree env).dropLast ++ [get_repo_name env, ".envrc"] := by
    rw [hseg, resolveRel_dotdot, List.dropLast_concat, resolveRel_seg _ hdot,
      resolveRel_seg _ (by decide), resolveRel_nil, List.append_assoc]
    rfl
  refine ⟨?_, hres, ?_⟩
  · unfold wt_create
    rw [hrepo]
    simp only [Bool.true_eq_false, if_false, hnex, hadd, henvrc, if_true,
      Trace.addE, Trace.addC, Trace.addLink]
    rcases shell with _ | _ <;> simp
  · rw [hres]
    obtain ⟨P, a, hPa⟩ : ∃ P a, get_main_worktree env = P ++ [a] :=
      ⟨_, _, (List.dropLast_append_getLast hmw).symm⟩
    rw [hPa]
    have hname : pathName (P ++ [a]) = a := by
      unfold pathName
      rw [List.getLastD_eq_getLast?, List.getLast?_concat]
      rfl
    rw [hname, List.dropLast_concat]
    rw [show (P ++ [a]) ++ [".envrc"] = P ++ [a, ".envrc"] by simp]
    rw [List.append_right_inj]
    simp

/-- Witness environment for the amended C4: the origin URL's final segment
(`repo`) matches the main worktree's directory name. -/
def envC4w : Env :=
  { run := fun c =>
      if c = remoteGetUrl then ⟨0, "https://github.com/u/repo", ""⟩
      else if c = worktreeListPorcelain then
        ⟨0, "worktree /home/u/repo\nHEAD abc\nbranch refs/heads/master", ""⟩
      else ⟨0, "", ""⟩,
    stream := fun _ => 0,
    dotGitExists := true, ghOnPath := true,
    cwd := ["", "home", "u", "repo"],
    pathExists := fun p => p = ["", "home", "u", "repo", ".envrc"],
    jsonParse := fun _ => none }

theorem C4_witness :
    (wt_create envC4w "feat" true false).1.symlinks =
      [(wtPath envC4w "feat" ++ [".envrc"], ["..", get_repo_name envC4w, ".envrc"])] ∧
    (resolveRel (wtPath envC4w "feat") ["..", get_repo_name envC4w, ".envrc"] =
        get_main_worktree envC4w ++ [".envrc"] ↔ (True : Prop)) := by
  have h := C4_amended_envrc_symlink envC4w "feat" true false rfl (by decide)
    (by decide) (by decide) (by decide) (by decide) (by decide) (by decide)
  refine ⟨h.1, ?_⟩
  rw [h.2.2]
  simp only [iff_true]
  decide

/-! ## C8: exit codes of `branch` and `list_prs` -/

/-- Counterexample environment for C8: every captured command fails with
exit code 3. -/
def envC8 : Env :=
  { run := fun _ => ⟨3, "", "fatal: boom"⟩, stream := fun _ => 0,
    dotGitExists := true, ghOnPath := true,
    cwd := ["", "home", "u", "repo"], pathExists := fun _ => false,
    jsonParse := fun _ => none }

/-- C8 counterexample: when the captured `for-each-ref` call in `branch` or
the captured PR listing in `list_prs` fails with exit code 3, the process
exits with code 3 (`raise typer.Exit(exit_code)` at lines 313 and 384), not
with code 1 as claimed. -/
theorem C8_counterexample :
    (runGit envC8 forEachRefCmd).exitCode = 3 ∧
    (branch envC8).2 = .exited 3 ∧ (branch envC8).2 ≠ .exited 1 ∧
    (list_prs envC8 "@me").2 = .exited 3 ∧ (list_prs envC8 "@me").2 ≠ .exited 1 := by
  decide

/-- C8 amended: precondition failures exit with code 1 and success paths
return normally, but the captured `for-each-ref` in `branch` and the
captured PR listing in `list_prs` propagate the child's own exit code when
it fails (so they exit 1 only when the child exited 1). -/
theorem C8_amended_exit_codes (env : Env) (author : String) (c : Int) :
    (env.dotGitExists = true → (runGit env forEachRefCmd).exitCode = c → c ≠ 0 →
      (branch env).2 = .exited c) ∧
    (env.dotGitExists = true → env.ghOnPath = true →
      (runGit env (ghPrListCmd author)).exitCode = c → c ≠ 0 →
      (list_prs env author).2 = .exited c) ∧
    (env.dotGitExists = false →
      (branch env).2 = .exited 1 ∧ (list_prs env author).2 = .exited 1) ∧
    (env.dotGitExists = true → (runGit env forEachRefCmd).exitCode = 0 →
      (branch env).2 = .ok) := by
  refine ⟨?_, ?_, ?_, ?_⟩
  · intro hrepo hc hne
    unfold branch
    rw [hrepo]
    simp [hc, hne]
  · intro hrepo hgh hc hne
    unfold list_prs
    rw [hrepo, hgh]
    simp [hc, hne]
  · intro hrepo
    constructor
    · unfold branch
      rw [hrepo]
      simp [notARepo]
    · unfold list_prs
      rw [hrepo]
      simp [notARepo]
  · intro hrepo hc
    unfold branch
    rw [hrepo]
    simp only [Bool.true_eq_false, if_false, hc, ne_eq, not_true_eq_false,
      not_false_eq_true]
    split_ifs <;> rfl

/-- Witness environment for the amended C8: `for-each-ref` and the PR
listing fail with exit code 5. -/
def envC8w : Env :=
  { run := fun _ => ⟨5, "", "denied"⟩, stream := fun _ => 0,
    dotGitExists := true, ghOnPath := true,
    cwd := ["", "home", "u", "repo"], pathExists := fun _ => false,
    jsonParse := fun _ => none }

theorem C8_witness :
    (branch envC8w).2 = .exited 5 ∧ (list_prs envC8w "@me").2 = .exited 5 :=
  ⟨(C8_amended_exit_codes envC8w "@me" 5).1 rfl (by decide) (by decide),
    (C8_amended_exit_codes envC8w "@me" 5).2.1 rfl rfl (by decide) (by decide)⟩

/-! ## C5: the `wt_list` filter -/

/-- Boolean form of the per-line keep decision of `wt_list` (false on
token-free lines, on which the code would raise instead). -/
def keepLineB (repo_name : String) (mw : List String) (l : String) : Bool :=
  match firstToken l with
  | none => false
  | some tok => keepWtLine repo_name mw tok

/-- On listings whose non-empty lines all carry a token, the filtering loop
is exactly a `List.filter` by the keep predicate. -/
theorem wtListFilter_eq (rn : String) (mw : List String) :
    ∀ (lines : List String), (∀ l ∈ lines, l ≠ "" → (firstToken l).isSome) →
      wtListFilter rn mw lines =
        some (lines.filter (fun l => decide (l ≠ "") && keepLineB rn mw l)) := by
  intro lines
  induction lines with
  | nil => intro _; rfl
  | cons l rest ih =>
    intro h
    have hrest := ih fun x hx hne => h x (List.mem_cons_of_mem l hx) hne
    by_cases hl : l = ""
    · subst hl
      simp only [wtListFilter, if_pos rfl, hrest, List.filter_cons]
      simp
    · rcases htok : firstToken l with _ | tok
      · exfalso
        have hs := h l (List.mem_cons_self _ _) hl
        rw [htok] at hs
        simp at hs
      · simp only [wtListFilter, if_neg hl, htok, hrest, List.filter_cons]
        by_cases hk : keepWtLine rn mw tok = true
        · simp [keepLineB, htok, hk, hl]
        · simp [keepLineB, htok, hk, hl]

/-- C5: with a successful non-empty listing, `--all` echoes the raw listing
unchanged, while default mode echoes exactly the lines kept by the filter —
the main worktree itself and direct siblings named `{repo_name}-…` — or the
"no ghg-managed worktrees" message when the filter keeps nothing. -/
theorem C5_wt_list_filtering (env : Env) :
    (env.dotGitExists = true → (runGit env worktreeListCmd).exitCode = 0 →
      (runGit env worktreeListCmd).stdout ≠ "" →
      (wt_list env true).1.echoes = [(runGit env worktreeListCmd).stdout] ∧
      (wt_list env true).2 = .ok) ∧
    (env.dotGitExists = true → (runGit env worktreeListCmd).exitCode = 0 →
      (runGit env worktreeListCmd).stdout ≠ "" →
      (∀ l ∈ linesOf (pyStripStr (runGit env worktreeListCmd).stdout),
        l ≠ "" → (firstToken l).isSome) →
      (wt_list env false).2 = .ok ∧
      (wt_list env false).1.echoes =
        [if (linesOf (pyStripStr (runGit env worktreeListCmd).stdout)).filter
              (fun l => decide (l ≠ "") &&
                keepLineB (get_repo_name env) (get_main_worktree env) l) = [] then
            "No ghg-managed worktrees found (use --all to see all worktrees)"
          else pyJoin "\n"
            ((linesOf (pyStripStr (runGit env worktreeListCmd).stdout)).filter
              (fun l => decide (l ≠ "") &&
                keepLineB (get_repo_name env) (get_main_worktree env) l))]) := by
  constructor
  · intro hrepo hexit hne
    unfold wt_list
    rw [hrepo]
    simp [hexit, hne, Trace.addE]
  · intro hrepo hexit hne htok
    unfold wt_list
    rw [hrepo]
    simp only [Bool.true_eq_false, if_false, hexit, hne, ne_eq, not_true_eq_false,
      not_false_eq_true, if_neg (by decide : ¬ ((0 : Int) ≠ 0)), if_neg hne,
      Bool.false_eq_true]
    rw [wtListFilter_eq _ _ _ htok]
    rcases hfs : (linesOf (pyStripStr (runGit env worktreeListCmd).stdout)).filter
        (fun l => decide (l ≠ "") &&
          keepLineB (get_repo_name env) (get_main_worktree env) l) with _ | ⟨f0, fs0⟩
    · simp [Trace.addE, Trace.addC]
    · simp [Trace.addE, Trace.addC]

/-- Witness environment for C5: origin repo name `repo`, main worktree
`/home/u/repo`, one managed sibling and one foreign worktree. -/
def envC5 : Env :=
  { run := fun c =>
      if c = worktreeListCmd then
        ⟨0, "/home/u/repo  abc [master]\n/home/u/repo-featA  def [featA]\n/tmp/scratch  ghi [other]", ""⟩
      else if c = remoteGetUrl then ⟨0, "https://github.com/u/repo", ""⟩
      else if c = worktreeListPorcelain then
        ⟨0, "worktree /home/u/repo\nHEAD abc\nbranch refs/heads/master", ""⟩
      else ⟨0, "", ""⟩,
    stream := fun _ => 0,
    dotGitExists := true, ghOnPath := true,
    cwd := ["", "home", "u", "repo"], pathExists := fun _ => false,
    jsonParse := fun _ => none }

theorem C5_witness :
    (wt_list envC5 true).1.echoes =
      ["/home/u/repo  abc [master]\n/home/u/repo-featA  def [featA]\n/tmp/scratch  ghi [other]"] ∧
    (wt_list envC5 false).1.echoes =
      ["/home/u/repo  abc [master]\n/home/u/repo-featA  def [featA]"] := by
  have h := C5_wt_list_filtering envC5
  constructor
  · rw [(h.1 rfl (by decide) (by decide)).1]
    decide
  · rw [(h.2 rfl (by decide) (by decide) (by decide)).2]
    decide

/-! ## C10: worktree lookup by branch name -/

theorem splitOnChar_ne_nil (sep : Char) (l : List Char) : splitOnChar sep l ≠ [] := by
  cases l with
  | nil => simp [splitOnChar]
  | cons c cs =>
    simp only [splitOnChar]
    rcases h : splitOnChar sep cs with _ | ⟨h0, t0⟩
    · simp
    · by_cases hc : c = sep <;> simp [hc]

theorem splitOnChar_length_ge_two (sep : Char) :
    ∀ (l : List Char), sep ∈ l → 2 ≤ (splitOnChar sep l).length := by
  intro l
  induction l with
  | nil => intro h; simp at h
  | cons c cs ih =>
    intro hmem
    simp only [splitOnChar]
    rcases h : splitOnChar sep cs with _ | ⟨h0, t0⟩
    · exact absurd h (splitOnChar_ne_nil sep cs)
    · by_cases hc : c = sep
      · simp [hc]
      · have hred : (match h0 :: t0 with
            | [] => ([[]] : List (List Char))
            | h :: t => if c = sep then [] :: h :: t else (c :: h) :: t) =
            (c :: h0) :: t0 := by simp [hc]
        rw [hred]
        rcases List.mem_cons.mp hmem with hceq | hmem'
        · exact absurd hceq.symm hc
        · have h2 := ih hmem'
          rw [h] at h2
          simp only [List.length_cons] at h2 ⊢
          omega

theorem getLastD_cons_default {α : Type} (x : α) (xs : List α) (d1 d2 : α) :
    (x :: xs).getLastD d1 = (x :: xs).getLastD d2 := by
  rw [List.getLastD_eq_getLast?, List.getLastD_eq_getLast?]
  rcases h : (x :: xs).getLast? with _ | y
  · simp at h
  · rfl

/-- The last `/`-component of `pre ++ "/" ++ bs` is `bs` itself whenever
`bs` contains no slash. -/
theorem getLastD_splitOnChar_append (sep : Char) :
    ∀ (pre bdata : List Char), (∀ c ∈ bdata, c ≠ sep) →
      (splitOnChar sep (pre ++ sep :: bdata)).getLastD [] = bdata := by
  intro pre
  induction pre with
  | nil =>
    intro bdata h
    simp only [List.nil_append, splitOnChar, splitOnChar_of_not_mem h]
    simp [List.getLastD_cons]
  | cons c pre' ih =>
    intro bdata h
    simp only [List.cons_append, splitOnChar]
    rcases hsp : splitOnChar sep (pre' ++ sep :: bdata) with _ | ⟨h0, t0⟩
    · exact absurd hsp (splitOnChar_ne_nil sep _)
    · have hlast := ih bdata h
      rw [hsp] at hlast
      by_cases hc : c = sep
      · have hred : (match h0 :: t0 with
            | [] => ([[]] : List (List Char))
            | h :: t => if c = sep then [] :: h :: t else (c :: h) :: t) =
            [] :: h0 :: t0 := by simp [hc]
        rw [hred, List.getLastD_cons]
        exact hlast
      · have hred : (match h0 :: t0 with
            | [] => ([[]] : List (List Char))
            | h :: t => if c = sep then [] :: h :: t else (c :: h) :: t) =
            (c :: h0) :: t0 := by simp [hc]
        rw [hred]
        rcases t0 with _ | ⟨x, xs⟩
        · exfalso
          have hlen := splitOnChar_length_ge_two sep (pre' ++ sep :: bdata)
            (by simp)
          rw [hsp] at hlen
          simp at hlen
        · rw [List.getLastD_cons]
          rw [List.getLastD_cons] at hlast
          rw [getLastD_cons_default x xs (c :: h0) h0]
          exact hlast

/-- `line.split("/")[-1]` of `pre ++ "/" ++ bs` is `bs` for slash-free `bs`. -/
theorem lastSegStr_append {pre bs : String} (h : ∀ c ∈ bs.data, c ≠ '/') :
    lastSegStr (pre ++ "/" ++ bs) = bs := by
  unfold lastSegStr pySplit
  have hd : (pre ++ "/" ++ bs).data = pre.data ++ '/' :: bs.data := by
    rw [String.data_append, String.data_append, List.append_assoc]
    rfl
  rw [hd]
  have hne := splitOnChar_ne_nil '/' (pre.data ++ '/' :: bs.data)
  rcases hlast : (splitOnChar '/' (pre.data ++ '/' :: bs.data)).getLast? with _ | y
  · rw [List.getLast?_eq_none_iff] at hlast
    exact absurd hlast hne
  · have hy : y = bs.data := by
      have hx := getLastD_splitOnChar_append '/' pre.data bs.data h
      rw [List.getLastD_eq_getLast?, hlast] at hx
      simpa using hx
    rw [List.getLastD_eq_getLast?, List.getLast?_map, hlast, hy]
    rfl

/-- One unfolding step of the lookup loop. -/
theorem findWtLoop_cons (b l : String) (rest : List String)
    (cur : Option (List String)) :
    findWtLoop b (l :: rest) cur =
      if pyStartsWith l "worktree " then
        findWtLoop b rest (some (parsePath (afterFirstSpace l)))
      else if pyStartsWith l "branch " ∧ cur.isSome then
        (if lastSegStr l = b then cur else findWtLoop b rest cur)
      else findWtLoop b rest cur := rfl

/-- A line starting with `"branch "` does not start with `"worktree "`. -/
theorem branch_not_worktree_line {l : String}
    (h : pyStartsWith l "branch " = true) : pyStartsWith l "worktree " = false := by
  unfold pyStartsWith at h ⊢
  have hb : ("branch " : String).data = 'b' :: "ranch ".data := rfl
  have hw : ("worktree " : String).data = 'w' :: "orktree ".data := rfl
  rw [hb] at h
  rw [hw]
  cases hd : l.data with
  | nil =>
    rw [hd] at h
    simp [List.isPrefixOf] at h
  | cons c cs =>
    rw [hd] at h
    simp only [List.isPrefixOf, Bool.and_eq_true, beq_iff_eq] at h ⊢
    obtain ⟨hbc, -⟩ := h
    subst hbc
    simp

/-- Counterexample environment for C10: one worktree on branch `a/b`. -/
def envC10 : Env :=
  { run := fun c =>
      if c = worktreeListPorcelain then
        ⟨0, "worktree /home/u/wt\nHEAD abc\nbranch refs/heads/a/b", ""⟩
      else ⟨0, "", ""⟩,
    stream := fun _ => 0,
    dotGitExists := true, ghOnPath := true,
    cwd := ["", "home", "u", "wt"], pathExists := fun _ => false,
    jsonParse := fun _ => none }

/-- C10 counterexample: the worktree's branch ref `refs/heads/a/b` ends in
`/a/b`, yet looking up the name `a/b` finds nothing — the code compares
only the final `/`-segment (`b`) against the whole given name — so
`wt_delete a/b` errors out with exit 1 and removes nothing. -/
theorem C10_counterexample :
    ("refs/heads/a/b" : String) = "refs/heads" ++ "/" ++ "a/b" ∧
    find_worktree_by_branch envC10 "a/b" = none ∧
    (wt_delete envC10 "a/b" false false).2 = .exited 1 ∧
    (wt_delete envC10 "a/b" false false).1.cmds = [worktreeListPorcelain] := by
  decide

/-- C10 amended: `wt_delete` resolves the worktree by comparing the final
`/`-segment of each branch line against the given name — so a ref ending in
`/<branch>` matches exactly when `<branch>` itself contains no slash — the
first matching entry in listing order wins, and the worktree removed is the
one the lookup returned. -/
theorem C10_amended_final_segment_lookup :
    (∀ (env : Env) (b : String) (f k : Bool) (wp : List String),
      env.dotGitExists = true → find_worktree_by_branch env b = some wp →
      (["git", "worktree", "remove", pathStr wp] ++ (if f then ["--force"] else []))
        ∈ (wt_delete env b f k).1.cmds) ∧
    (∀ (wl bl : String) (rest : List String) (b : String),
      pyStartsWith wl "worktree " = true → pyStartsWith bl "branch " = true →
      lastSegStr bl = b →
      findWtLoop b (wl :: bl :: rest) none = some (parsePath (afterFirstSpace wl))) ∧
    (∀ (pre bs : String), (∀ c ∈ bs.data, c ≠ '/') →
      lastSegStr (pre ++ "/" ++ bs) = bs) := by
  refine ⟨?_, ?_, fun pre bs h => lastSegStr_append h⟩
  · intro env b f k wp hrepo hfind
    unfold wt_delete
    rw [hrepo]
    simp only [Bool.true_eq_false, if_false, hfind]
    split_ifs <;> simp [Trace.addE, Trace.addC]
  · intro wl bl rest b hwl hbl hlast
    rw [findWtLoop_cons, if_pos hwl, findWtLoop_cons,
      if_neg (by simp [branch_not_worktree_line hbl]),
      if_pos ⟨hbl, rfl⟩, if_pos hlast]

/-- Witness environment for the amended C10: one worktree on branch `feat`. -/
def envC10w : Env :=
  { run := fun c =>
      if c = worktreeListPorcelain then
        ⟨0, "worktree /home/u/repo-feat\nHEAD abc\nbranch refs/heads/feat", ""⟩
      else ⟨0, "", ""⟩,
    stream := fun _ => 0,
    dotGitExists := true, ghOnPath := true,
    cwd := ["", "home", "u", "repo-feat"], pathExists := fun _ => false,
    jsonParse := fun _ => none }

theorem C10_witness :
    (["git", "worktree", "remove", "/home/u/repo-feat"] : List String)
      ∈ (wt_delete envC10w "feat" false false).1.cmds ∧
    lastSegStr ("refs/heads" ++ "/" ++ "feat") = "feat" := by
  constructor
  · have h := C10_amended_final_segment_lookup.1 envC10w "feat" false false
      (parsePath "/home/u/repo-feat") rfl (by decide)
    have e : (["git", "worktree", "remove", pathStr (parsePath "/home/u/repo-feat")] ++
        (if false then ["--force"] else []) : List String) =
        ["git", "worktree", "remove", "/home/u/repo-feat"] := by decide
    rw [e] at h
    exact h
  · exact C10_amended_final_segment_lookup.2.2 "refs/heads" "feat" (by decide)

end Gpp
